import Mathlib

/-!
Shallow embedding of the AIxMultimodal extraction & meta-analysis core
(`src/backend/data_extractor.py` and `src/backend/meta_study.py`) together
with theorems settling the specification claims.

Strings are modelled as `List Char` (Python `str` is a sequence of code
points).  Python exceptions are modelled with `Except PyErr`; operations of
the source that cannot raise are total Lean functions.
-/

namespace AIxMultimodal

/-- Python exception values that the modelled code can raise or catch:
`KeyError` (missing DataFrame column), `ValueError` (sklearn input
validation), `AttributeError` (attribute access on a collaborator object). -/
inductive PyErr where
  | keyError (key : String)
  | valueError (msg : String)
  | attributeError (msg : String)
  deriving DecidableEq, Repr

/-! ## Python string primitives

`str.strip` / `str.split()` / `str.split(sep)` as used by
`_preprocess_text` and `_extract_table_data`. -/

/-- Characters Python's `str.isspace` recognises (the set `str.strip` and
no-argument `str.split` split on): ASCII whitespace, the C0/C1 separator
controls, and the Unicode space separators. -/
def pyIsSpace (c : Char) : Bool :=
  c.val = 32 || (9 <= c.val && c.val <= 13) || (28 <= c.val && c.val <= 31) ||
  c.val = 0x85 || c.val = 0xa0 || c.val = 0x1680 ||
  (0x2000 <= c.val && c.val <= 0x200a) ||
  c.val = 0x2028 || c.val = 0x2029 || c.val = 0x205f || c.val = 0x3000

/-- Python `s.strip()`: remove leading and trailing whitespace. -/
def pyStrip (s : List Char) : List Char :=
  ((s.dropWhile pyIsSpace).reverse.dropWhile pyIsSpace).reverse

/-- Worker for `pySplitWs`: `acc` holds the current (reversed) run of
non-whitespace characters. -/
def pySplitWsAux : List Char → List Char → List (List Char)
  | [], acc => if acc.isEmpty then [] else [acc.reverse]
  | c :: cs, acc =>
    if pyIsSpace c then
      if acc.isEmpty then pySplitWsAux cs []
      else acc.reverse :: pySplitWsAux cs []
    else pySplitWsAux cs (c :: acc)

/-- Python `s.split()` (no separator argument): the maximal runs of
non-whitespace characters, empties never produced. -/
def pySplitWs (s : List Char) : List (List Char) := pySplitWsAux s []

/-- Python `s.split(sep)` for a one-character separator: split at every
occurrence, keeping empty pieces (so `"".split(sep) == [""]`). -/
def pySplitOn (sep : Char) : List Char → List (List Char)
  | [] => [[]]
  | c :: cs =>
    if c = sep then [] :: pySplitOn sep cs
    else
      match pySplitOn sep cs with
      | [] => [[c]]
      | g :: gs => (c :: g) :: gs

/-- Python `' '.join(groups)`. -/
def joinSp : List (List Char) → List Char
  | [] => []
  | [g] => g
  | g :: gs => g ++ ' ' :: joinSp gs

/-! ## `DataExtractor._preprocess_text` and `DataExtractor._extract_table_data` -/

/-- Model of `DataExtractor._preprocess_text`: `text.strip()` then
`' '.join(cleaned_text.split())`.  The source wraps this in
`try/except` returning the input unchanged, but `strip`/`split`/`join`
on a string are total, so the fallback branch is unreachable and the
model is a total function. -/
def preprocess_text (text : List Char) : List Char :=
  joinSp (pySplitWs (pyStrip text))

/-- Model of `DataExtractor._extract_table_data`: split the element's text into
lines, keep non-blank lines, split each on `'|'`, strip cells, drop empty
cells, keep a line only if at least one cell survives; `none` when no row
survives (the Python function returns `None`). -/
def extract_table_data (tableText : List Char) : Option (List (List (List Char))) :=
  let rows := pySplitOn '\n' (pyStrip tableText)
  let tableData := rows.filterMap (fun row =>
    if (pyStrip row).isEmpty then none
    else
      let cells := (pySplitOn '|' row).filterMap (fun cell =>
        if (pyStrip cell).isEmpty then none else some (pyStrip cell))
      if cells.isEmpty then none else some cells)
  if tableData.isEmpty then none else some tableData

/-! ## `DataExtractor.extract_from_pdf`

The upstream parser `partition_pdf` is an external collaborator; the
embedding takes its output — the ordered element sequence — as input.
Each element carries the class tag `isinstance` dispatches on, the text
`str(element)` yields, and the outcome of the page-number lookup
`getattr(element, 'metadata', {}).get('page_number', 1)` — a call on a
collaborator object that either yields a number or raises. -/

/-- The element classes `extract_from_pdf` dispatches on
(`Table`, `Text`, `Title`, `ListItem`); `other` stands for any other
element class, which the loop ignores. -/
inductive ElemTag where
  | table
  | text
  | title
  | listItem
  | other
  deriving DecidableEq, Repr

/-- Python `type(element).__name__` for the text-like tags. -/
def ElemTag.name : ElemTag → String
  | .table => "Table"
  | .text => "Text"
  | .title => "Title"
  | .listItem => "ListItem"
  | .other => "Other"

/-- One element of the upstream parser's output.  `page` is the result of
`getattr(element, 'metadata', {}).get('page_number', 1)`: `.ok n` when the
lookup yields `n` (or the defaults apply), `.error e` when the metadata
object raises (e.g. `AttributeError` on an object with no `get`). -/
structure RawElement where
  tag : ElemTag
  content : List Char
  page : Except PyErr Nat
  deriving Repr

/-- One entry of `extracted_data["tables"]`. -/
structure TableRecord where
  id : String
  data : List (List (List Char))
  page : Nat
  deriving DecidableEq, Repr

/-- One entry of `extracted_data["text_sections"]`. -/
structure TextSection where
  id : String
  content : List Char
  type : String
  page : Nat
  deriving DecidableEq, Repr

/-- One entry of `extracted_data["charts"]` (never constructed: the OCR
chart extractor is a stub returning the empty list). -/
structure ChartRecord where
  id : String
  deriving DecidableEq, Repr

/-- The `extracted_data["metadata"]` record. -/
structure DocMetadata where
  filename : String
  total_elements : Nat
  deriving DecidableEq, Repr

/-- The dictionary `extract_from_pdf` returns. -/
structure ExtractedDocument where
  tables : List TableRecord
  text_sections : List TextSection
  charts : List ChartRecord
  metadata : DocMetadata
  deriving Repr

/-- The id string `f"table_{i}"`. -/
def tableId (i : Nat) : String := "table_" ++ toString i

/-- The id string `f"text_{i}"`. -/
def textId (i : Nat) : String := "text_" ++ toString i

/-- The `for i, element in enumerate(elements)` loop of `extract_from_pdf`,
with `i` the position of the first remaining element.  An exception raised
while handling an element (the page-metadata lookup) propagates: the
enclosing `try` of the source logs it and re-raises. -/
def classifyElems : Nat → List RawElement → Except PyErr (List TableRecord × List TextSection)
  | _, [] => .ok ([], [])
  | i, e :: es =>
    match e.tag with
    | .table =>
      match extract_table_data e.content with
      | none => classifyElems (i + 1) es
      | some data =>
        match e.page with
        | .error err => .error err
        | .ok p =>
          match classifyElems (i + 1) es with
          | .error err => .error err
          | .ok (ts, xs) => .ok (⟨tableId i, data, p⟩ :: ts, xs)
    | .other => classifyElems (i + 1) es
    | tag =>
      if (pyStrip e.content).isEmpty then classifyElems (i + 1) es
      else
        match e.page with
        | .error err => .error err
        | .ok p =>
          match classifyElems (i + 1) es with
          | .error err => .error err
          | .ok (ts, xs) =>
            .ok (ts, ⟨textId i, preprocess_text e.content, tag.name, p⟩ :: xs)

/-- Model of `DataExtractor.extract_from_pdf` given the parsed element sequence:
builds the metadata record (`total_elements = len(elements)`), runs the
classification loop, and returns the document; any exception raised inside
is logged and re-raised (`except ... raise`), modelled as `.error`. -/
def extract_from_pdf (filename : String) (elements : List RawElement) :
    Except PyErr ExtractedDocument :=
  match classifyElems 0 elements with
  | .error err => .error err
  | .ok (ts, xs) => .ok ⟨ts, xs, [], ⟨filename, elements.length⟩⟩

/-- Model of `DataExtractor.extract_charts_with_ocr`: a placeholder that always
returns the empty list (and catches any internal error into `[]`). -/
def extract_charts_with_ocr (_filePath : String) : List ChartRecord := []

/-! ## `DataExtractor.convert_to_excel`

The spreadsheet writer (`pd.ExcelWriter`) is an external collaborator;
the embedding builds the sheet sequence the source hands it, in order. -/

/-- The payload of one written sheet: a table's grid (first row used as
column headers), the text-sections summary rows (ID/Type/Page/Content),
or the metadata record. -/
inductive SheetData where
  | table (data : List (List (List Char)))
  | texts (rows : List (String × String × Nat × List Char))
  | meta (filename : String) (total_elements : Nat)
  deriving DecidableEq, Repr

/-- One sheet the exporter writes: its name and payload. -/
structure Sheet where
  name : String
  data : SheetData
  deriving DecidableEq, Repr

/-- The `Content` column value: `content[:500] + "..."` when
`len(content) > 500`, otherwise `content` unchanged. -/
def truncContent (content : List Char) : List Char :=
  if 500 < content.length then content.take 500 ++ "...".toList else content

/-- Model of `DataExtractor.convert_to_excel` as the ordered sheet sequence written:
one `Table_<i+1>` sheet per table whose `data` is non-empty (`i` the
0-based position in the tables list), then a `Text_Sections` sheet when at
least one text section exists, then the `Metadata` sheet. -/
def convert_to_excel (d : ExtractedDocument) : List Sheet :=
  (d.tables.enum.filterMap fun p =>
    if p.2.data.isEmpty then none
    else some ⟨"Table_" ++ toString (p.1 + 1), .table p.2.data⟩) ++
  (if d.text_sections.isEmpty then []
   else [⟨"Text_Sections",
          .texts (d.text_sections.map fun s =>
            (s.id, s.type, s.page, truncContent s.content))⟩]) ++
  [⟨"Metadata", .meta d.metadata.filename d.metadata.total_elements⟩]

/-! ## `DataExtractor.extract_and_convert` -/

/-- The `summary` sub-dictionary of a successful pipeline result. -/
structure PipelineSummary where
  tables_found : Nat
  text_sections_found : Nat
  charts_found : Nat
  deriving DecidableEq, Repr

/-- The dictionary `extract_and_convert` returns.  The failure dictionary
carries no `summary` key and the success dictionary no `error` key;
the absent keys are `none`. -/
structure PipelineResult where
  success : Bool
  excel_file : Option String
  extracted_data : Option ExtractedDocument
  summary : Option PipelineSummary
  error : Option PyErr
  deriving Repr

/-- Model of `DataExtractor.extract_and_convert`: extract, attach the (always
empty) OCR chart list, build the sheets and hand them to the spreadsheet
writer (`writer`, an external collaborator returning the output path or
raising).  Every exception is caught by the enclosing `try/except`, which
returns the failure dictionary — the function itself never raises. -/
def extract_and_convert (filename : String) (elements : List RawElement)
    (writer : List Sheet → Except PyErr String) : PipelineResult :=
  match extract_from_pdf filename elements with
  | .error e => ⟨false, none, none, none, some e⟩
  | .ok d =>
    let d' := { d with charts := extract_charts_with_ocr filename }
    match writer (convert_to_excel d') with
    | .error e => ⟨false, none, none, none, some e⟩
    | .ok path =>
      ⟨true, some path, some d',
       some ⟨d'.tables.length, d'.text_sections.length, d'.charts.length⟩,
       none⟩

/-! ## `meta_study_from_matrix` (src/backend/meta_study.py)

The function reads the `filename` and `summary` columns of the input
record list (any further columns pass through untouched and are omitted
from the model), vectorizes the summaries with
`TfidfVectorizer(stop_words='english')`, clusters with
`KMeans(n_clusters=min(n_clusters, len(df)), random_state=42)`, and
extracts per-cluster top terms with `center.argsort()[-5:][::-1]`. -/

/-- One record of the input matrix (one uploaded document). -/
structure CorpusRecord where
  filename : String
  summary : List Char
  deriving DecidableEq, Repr

/-- A word character of the vectorizer's token pattern `\b\w\w+\b`. -/
def isWordChar (c : Char) : Bool := c.isAlphanum || c = '_'

/-- Worker collecting maximal runs of word characters. -/
def wordRunsAux : List Char → List Char → List (List Char)
  | [], acc => if acc.isEmpty then [] else [acc.reverse]
  | c :: cs, acc =>
    if isWordChar c then wordRunsAux cs (c :: acc)
    else if acc.isEmpty then wordRunsAux cs []
    else acc.reverse :: wordRunsAux cs []

/-- The `TfidfVectorizer` analyzer before stop-word removal: lowercase the
text, then take every maximal run of word characters of length at least 2
(the default token pattern `\b\w\w+\b`). -/
def sklearnTokens (s : List Char) : List (List Char) :=
  (wordRunsAux (s.map Char.toLower) []).filter fun t => 2 ≤ t.length

/-- scikit-learn's built-in English stop word list
(`sklearn.feature_extraction.text.ENGLISH_STOP_WORDS`), selected by
`stop_words='english'`. -/
def ENGLISH_STOP_WORDS : List (List Char) :=
  ([ "a", "about", "above", "across", "after", "afterwards", "again",
    "against", "all", "almost", "alone", "along", "already", "also",
    "although", "always", "am", "among", "amongst", "amoungst", "amount",
    "an", "and", "another", "any", "anyhow", "anyone", "anything", "anyway",
    "anywhere", "are", "around", "as", "at", "back", "be", "became",
    "because", "become", "becomes", "becoming", "been", "before",
    "beforehand", "behind", "being", "below", "beside", "besides",
    "between", "beyond", "bill", "both", "bottom", "but", "by", "call",
    "can", "cannot", "cant", "co", "computer", "con", "could", "couldnt",
    "cry", "de", "describe", "detail", "do", "done", "down", "due",
    "during", "each", "eg", "eight", "either", "eleven", "else",
    "elsewhere", "empty", "enough", "etc", "even", "ever", "every",
    "everyone", "everything", "everywhere", "except", "few", "fifteen",
    "fifty", "fill", "find", "fire", "first", "five", "for", "former",
    "formerly", "forty", "found", "four", "from", "front", "full",
    "further", "get", "give", "go", "had", "has", "hasnt", "have", "he",
    "hence", "her", "here", "hereafter", "hereby", "herein", "hereupon",
    "hers", "herself", "him", "himself", "his", "how", "however",
    "hundred", "i", "ie", "if", "in", "inc", "indeed", "interest", "into",
    "is", "it", "its", "itself", "keep", "last", "latter", "latterly",
    "least", "less", "ltd", "made", "many", "may", "me", "meanwhile",
    "might", "mill", "mine", "more", "moreover", "most", "mostly", "move",
    "much", "must", "my", "myself", "name", "namely", "neither", "never",
    "nevertheless", "next", "nine", "no", "nobody", "none", "noone", "nor",
    "not", "nothing", "now", "nowhere", "of", "off", "often", "on", "once",
    "one", "only", "onto", "or", "other", "others", "otherwise", "our",
    "ours", "ourselves", "out", "over", "own", "part", "per", "perhaps",
    "please", "put", "rather", "re", "same", "see", "seem", "seemed",
    "seeming", "seems", "serious", "several", "she", "should", "show",
    "side", "since", "sincere", "six", "sixty", "so", "some", "somehow",
    "someone", "something", "sometime", "sometimes", "somewhere", "still",
    "such", "system", "take", "ten", "than", "that", "the", "their",
    "them", "themselves", "then", "thence", "there", "thereafter",
    "thereby", "therefore", "therein", "thereupon", "these", "they",
    "thick", "thin", "third", "this", "those", "though", "three",
    "through", "throughout", "thru", "thus", "to", "together", "too",
    "top", "toward", "towards", "twelve", "twenty", "two", "un", "under",
    "until", "up", "upon", "us", "very", "via", "was", "we", "well",
    "were", "what", "whatever", "when", "whence", "whenever", "where",
    "whereafter", "whereas", "whereby", "wherein", "whereupon", "wherever",
    "whether", "which", "while", "whither", "who", "whoever", "whole",
    "whom", "whose", "why", "will", "with", "within", "without", "would",
    "yet", "you", "your", "yours", "yourself", "yourselves"
  ] : List String).map String.toList

/-- The tokens of one summary after stop-word removal. -/
def tokensOf (s : List Char) : List (List Char) :=
  (sklearnTokens s).filter fun t => !ENGLISH_STOP_WORDS.contains t

/-- Lexicographic comparison of strings by code point, Python's `<` on
`str`, used by the vectorizer to order its vocabulary. -/
def strLt : List Char → List Char → Bool
  | [], [] => false
  | [], _ :: _ => true
  | _ :: _, [] => false
  | a :: as, b :: bs =>
    if a.val < b.val then true
    else if b.val < a.val then false
    else strLt as bs

/-- The fitted vocabulary: the distinct tokens of the corpus in the
vectorizer's canonical (sorted) order. -/
def sortedVocab (docs : List (List (List Char))) : List (List Char) :=
  docs.flatten.dedup.insertionSort fun a b => !strLt b a

/-- Number of corpus documents containing term `t`. -/
def docFreq (docs : List (List (List Char))) (t : List Char) : Nat :=
  (docs.filter fun d => d.contains t).length

/-- Number of occurrences of term `t` in one document's token list. -/
def termCount (toks : List (List Char)) (t : List Char) : Nat :=
  (toks.filter fun u => u = t).length

/-- Product over the corpus's distinct terms of `1 + df(u)`: the positive
constant each matrix row is scaled by in this model (in place of
scikit-learn's L2 row normalization) to clear the idf denominators. -/
def dfScale (docs : List (List (List Char))) : Nat :=
  docs.flatten.dedup.foldl (fun a u => a * (1 + docFreq docs u)) 1

/-- The tf-idf weight of term `t` in the document with tokens `toks`,
modelled over `ℚ`.  scikit-learn computes
`count * (ln((1 + n) / (1 + df)) + 1)` and then L2-normalizes each row.
Floating-point logarithms have no exact rational embedding, and the
matrix feeds only `argsort` downstream, which consumes within-row order
alone; the model therefore applies the strictly increasing map
`x ↦ exp (x - 1)` to the idf factor — yielding `(1 + n) / (1 + df)` —
and scales each row by the positive constant `dfScale` instead of the L2
norm, clearing denominators: the entry is the natural number
`count * (1 + n) * (dfScale / (1 + df))` (the division is exact).
Strictly increasing maps of the idf and positive row scalings leave
every within-row comparison and the row's zero pattern unchanged
whenever the row's counts are 0 or 1, as they are in every corpus
instance settled here. -/
def tfidfWeight (docs : List (List (List Char))) (toks : List (List Char))
    (t : List Char) : ℚ :=
  ((termCount toks t * (1 + docs.length) *
      (dfScale docs / (1 + docFreq docs t)) : ℕ) : ℚ)

/-- The order `numpy.argsort` sorts index `i` before index `j` under:
ascending value, ties kept in ascending index order (the deterministic
stable model of the unspecified tie order). -/
def argsortRel (v : List ℚ) (i j : Nat) : Prop :=
  v.getD i 0 < v.getD j 0 ∨ (v.getD i 0 = v.getD j 0 ∧ i ≤ j)

instance (v : List ℚ) : DecidableRel (argsortRel v) := fun _ _ =>
  inferInstanceAs (Decidable (Or _ _))

instance argsortRel_total (v : List ℚ) : IsTotal Nat (argsortRel v) := by
  constructor
  intro i j
  rcases lt_trichotomy (v.getD i 0) (v.getD j 0) with h | h | h
  · exact Or.inl (Or.inl h)
  · rcases le_total i j with hij | hji
    · exact Or.inl (Or.inr ⟨h, hij⟩)
    · exact Or.inr (Or.inr ⟨h.symm, hji⟩)
  · exact Or.inr (Or.inl h)

instance argsortRel_trans (v : List ℚ) : IsTrans Nat (argsortRel v) := by
  constructor
  intro a b c hab hbc
  rcases hab with h1 | ⟨h1, h2⟩ <;> rcases hbc with h3 | ⟨h3, h4⟩
  · exact Or.inl (h1.trans h3)
  · exact Or.inl (h3 ▸ h1)
  · exact Or.inl (h1 ▸ h3)
  · exact Or.inr ⟨h1.trans h3, h2.trans h4⟩

/-- Model of `center.argsort()`: the indices `0, …, len-1` sorted ascending by
value (stable in the index on ties). -/
def argsortAsc (v : List ℚ) : List Nat :=
  (List.range v.length).insertionSort (argsortRel v)

/-- Model of `center.argsort()[-5:][::-1]`: the last five (or all, when fewer)
positions of the ascending argsort, reversed. -/
def top5Indices (v : List ℚ) : List Nat :=
  ((argsortAsc v).drop (v.length - 5)).reverse

/-- Computation `min(n_clusters, len(df))`, the cluster count handed to `KMeans`. -/
def effectiveK (requested corpusSize : Nat) : Nat := min requested corpusSize

/-- Ascending sort of the distinct cluster labels, the key order of
`df.groupby('cluster')`. -/
def sortedNatAsc (l : List Nat) : List Nat := l.insertionSort (· ≤ ·)

/-- The dictionary `meta_study_from_matrix` returns: `clusters` maps each
occurring label (ascending) to the filenames assigned to it in input
order, `top_terms` maps each label in `range k` to its centroid's top
terms, `matrix` is the record list with the assigned label attached. -/
structure MetaStudyResult where
  clusters : List (Nat × List String)
  top_terms : List (Nat × List (List Char))
  matrix : List (CorpusRecord × Nat)
  deriving DecidableEq, Repr

instance : Inhabited MetaStudyResult := ⟨⟨[], [], []⟩⟩

/-- Model of `meta_study_from_matrix`.  The k-means fit is an external collaborator
(`sklearn.cluster.KMeans(random_state=42).fit`); the embedding takes it as
the parameter `km`, mapping the cluster count and the tf-idf matrix to the
per-document labels and the cluster centers.  Failure points of the
source, in order: `df['summary']` raises `KeyError` on the empty input
list (the frame then has no columns); `fit_transform` raises `ValueError`
when the corpus yields an empty vocabulary; the `KMeans` fit raises
`ValueError` when `min(n_clusters, len(df)) < 1`. -/
def meta_study_from_matrix
    (km : Nat → List (List ℚ) → List Nat × List (List ℚ))
    (matrixJson : List CorpusRecord) (n_clusters : Nat) :
    Except PyErr MetaStudyResult :=
  if matrixJson.isEmpty then .error (.keyError "summary")
  else
    let docs := matrixJson.map fun r => tokensOf r.summary
    let vocab := sortedVocab docs
    if vocab.isEmpty then .error (.valueError "empty vocabulary")
    else
      let k := effectiveK n_clusters matrixJson.length
      if k = 0 then .error (.valueError "n_clusters must be >= 1")
      else
        let X := docs.map fun toks => vocab.map fun t => tfidfWeight docs toks t
        let fitted := km k X
        let labels := fitted.1
        let centers := fitted.2
        let top_terms := (List.range k).map fun i =>
          (i, (top5Indices (centers.getD i [])).map fun idx => vocab.getD idx [])
        let labeled := matrixJson.zip labels
        let clusters := (sortedNatAsc labels.dedup).map fun c =>
          (c, labeled.filterMap fun p => if p.2 = c then some p.1.filename else none)
        .ok ⟨clusters, top_terms, labeled⟩

/-- A concrete k-means collaborator for closed statements.  On the
degenerate instances settled here — cluster count equal to the number of
documents, or a single document — sklearn's seeded k-means reaches the
unique zero-inertia optimum: each document is its own cluster and each
centroid equals the document's tf-idf row (the labelling is then a
permutation of the documents; the identity representative is taken, and
every settled statement is invariant under relabelling). -/
def kmExact (k : Nat) (X : List (List ℚ)) : List Nat × List (List ℚ) :=
  ((List.range X.length).map fun i => i % k, X)

/-- A well-formed k-means fit: one label per document, labels in
`[0, k)`. -/
def KMeansValid (km : Nat → List (List ℚ) → List Nat × List (List ℚ)) : Prop :=
  ∀ k X, 0 < k → (km k X).1.length = X.length ∧ ∀ l ∈ (km k X).1, l < k

/-! ## Concrete inputs used by closed statements -/

/-- First record of the end-to-end corpus of spec §8. -/
def recR1 : CorpusRecord := ⟨"r1", "AI in healthcare is growing rapidly".toList⟩

/-- Second record of the end-to-end corpus of spec §8. -/
def recR2 : CorpusRecord := ⟨"r2", "Machine learning improves diagnostics".toList⟩

/-- Third record of the end-to-end corpus of spec §8. -/
def recR3 : CorpusRecord := ⟨"r3", "AI and ML are used in medical imaging".toList⟩

/-- The end-to-end corpus of spec §8. -/
def corpusS8 : List CorpusRecord := [recR1, recR2, recR3]

/-- The meta-study result on the §8 corpus with requested `k = 3`. -/
def metaRes8 : MetaStudyResult :=
  (meta_study_from_matrix kmExact corpusS8 3).toOption.getD default

/-- Ordering the claim asserts for a top-terms index list: descending
weight, ties broken by ascending vocabulary index. -/
def DescWeightAscIdx (v : List ℚ) (l : List Nat) : Prop :=
  l.Pairwise fun i j => v.getD j 0 < v.getD i 0 ∨ (v.getD i 0 = v.getD j 0 ∧ i < j)

/-- Ordering the code actually produces: descending weight, ties broken by
descending vocabulary index. -/
def DescWeightDescIdx (v : List ℚ) (l : List Nat) : Prop :=
  l.Pairwise fun i j => v.getD j 0 < v.getD i 0 ∨ (v.getD i 0 = v.getD j 0 ∧ j < i)

/-- A five-element parse: two tables (positions 0 and 1), a `Text` and a
`Title` (positions 2 and 3), and one unrecognized element (position 4). -/
def elemsFive : List RawElement :=
  [⟨.table, "a|b".toList, .ok 1⟩,
   ⟨.table, "c|d".toList, .ok 2⟩,
   ⟨.text, "hello".toList, .ok 1⟩,
   ⟨.title, "world".toList, .ok 3⟩,
   ⟨.other, "ignored".toList, .ok 1⟩]

/-- A table element whose page-metadata lookup raises. -/
def poisonedElem : RawElement :=
  ⟨.table, "a|b".toList, .error (.attributeError "ElementMetadata has no get")⟩

/-- An extracted document with two (non-empty) tables and no text
sections. -/
def docTwoTablesNoText : ExtractedDocument :=
  ⟨[⟨"table_0", [["a".toList], ["b".toList]], 1⟩,
    ⟨"table_1", [["c".toList], ["d".toList]], 1⟩],
   [], [], ⟨"f.pdf", 2⟩⟩

/-- An extracted document with two tables and three text sections, the
third of content length 600. -/
def docExportDemo : ExtractedDocument :=
  ⟨[⟨"table_0", [["a".toList], ["b".toList]], 1⟩,
    ⟨"table_1", [["c".toList], ["d".toList]], 2⟩],
   [⟨"text_2", "alpha".toList, "Text", 1⟩,
    ⟨"text_3", "beta".toList, "Title", 1⟩,
    ⟨"text_4", List.replicate 600 'x', "Text", 2⟩],
   [], ⟨"f.pdf", 6⟩⟩

/-- The relation of `NoDoubleWhitespace`: two adjacent characters are
never both whitespace. -/
def NoDoubleWhitespace (l : List Char) : Prop :=
  l.Chain' fun a b => ¬(pyIsSpace a = true ∧ pyIsSpace b = true)

theorem kmExact_valid : KMeansValid kmExact := by
  intro k X hk
  constructor
  · simp [kmExact]
  · intro l hl
    simp only [kmExact, List.mem_map] at hl
    obtain ⟨i, -, rfl⟩ := hl
    exact Nat.mod_lt _ hk


/-! ## Shared lemmas -/

/-- The top-terms index list always has `min 5 (vocab size)` entries. -/
theorem top5Indices_length (v : List ℚ) : (top5Indices v).length = min 5 v.length := by
  unfold top5Indices argsortAsc
  rw [List.length_reverse, List.length_drop, List.length_insertionSort,
    List.length_range]
  omega

/-! ## Claims -/

/-- Claim C1, corrected, counterexample: on the empty input list
`meta_study_from_matrix` raises (`df['summary']` is a `KeyError` on a
frame with no columns) instead of returning empty structures. -/
theorem C1_counterexample :
    meta_study_from_matrix kmExact [] 3 = .error (.keyError "summary") := rfl

/-- Claim C1, amended: for every k-means collaborator and every requested
cluster count, `meta_study_from_matrix` on the empty input list raises a
`KeyError` for the missing `summary` column; the clustering step is not
skipped and no empty structures are returned. -/
theorem C1_empty_corpus_raises :
    ∀ (km : Nat → List (List ℚ) → List Nat × List (List ℚ)) (k : Nat),
      meta_study_from_matrix km [] k = .error (.keyError "summary") := by
  intro km k; rfl

/-- Claim C2, corrected, counterexample: a failure while classifying the
single element of the input (its page-metadata lookup raises) aborts the
whole pass — `extract_from_pdf` returns the error, no `ExtractedDocument`. -/
theorem C2_counterexample :
    extract_from_pdf "doc.pdf" [poisonedElem] =
      .error (.attributeError "ElementMetadata has no get") := rfl

/-- Claim C2, amended: an exception raised while classifying an element
(the page-metadata lookup of a table element whose data parses) is logged
and re-raised, aborting the whole pass regardless of the remaining
elements; only the table-text parsing and the text normalization contain
their own failures internally. -/
theorem C2_element_failure_aborts :
    ∀ (fn : String) (err : PyErr) (content : List Char)
      (data : List (List (List Char))) (rest : List RawElement),
      extract_table_data content = some data →
      extract_from_pdf fn (⟨.table, content, .error err⟩ :: rest) = .error err := by
  intro fn err content data rest h
  simp [extract_from_pdf, classifyElems, h]

/-- Claim C2 witness: the amended abort behaviour at a concrete element. -/
theorem C2_witness :
    extract_from_pdf "doc.pdf"
        [⟨.table, "a|b".toList, .error (.attributeError "no get")⟩] =
      .error (.attributeError "no get") :=
  C2_element_failure_aborts "doc.pdf" (.attributeError "no get") "a|b".toList
    [["a".toList, "b".toList]] [] (by decide)

/-- Claim C3, corrected, counterexample: on the centroid `[1, 1]` (two
equal weights) the code returns the indices `[1, 0]` — the tie is broken
by descending vocabulary index, not ascending as claimed. -/
theorem C3_counterexample :
    top5Indices [(1 : ℚ), 1] = [1, 0] ∧
      ¬ DescWeightAscIdx [(1 : ℚ), 1] (top5Indices [(1 : ℚ), 1]) := by
  unfold DescWeightAscIdx
  constructor
  · decide
  · decide

/-- Claim C4, corrected, counterexample: in the §8 end-to-end run
(three summaries, effective k = 3, each document its own cluster) the
cluster holding only `r1` gets the top term `used`, a vocabulary token
that does not occur in `r1`'s summary — the code's `argsort()[-5:]`
always returns five indices once the vocabulary has five terms, padding
with zero-weight terms when the centroid has fewer than five non-zero
entries. -/
theorem C4_counterexample :
    (meta_study_from_matrix kmExact corpusS8 3).isOk = true ∧
      metaRes8.clusters.lookup 0 = some ["r1"] ∧
      "used".toList ∈ (metaRes8.top_terms.lookup 0).getD [] ∧
      "used".toList ∉ tokensOf recR1.summary := by
  refine ⟨by decide, by decide, by decide, by decide⟩

/-- Claim C4, amended: in the §8 scenario every `top_terms` list has
length at most 5 (and in general exactly `min 5 (vocab size)` indices are
selected), but a top term need not occur in the cluster's documents'
summaries: the cluster holding only `r1` receives the zero-weight
vocabulary token `used`, absent from `r1`'s summary. -/
theorem C4_top_terms_bounded_but_foreign :
    (∀ p ∈ metaRes8.top_terms, p.2.length ≤ 5) ∧
      (∀ v : List ℚ, (top5Indices v).length = min 5 v.length) ∧
      "used".toList ∈ (metaRes8.top_terms.lookup 0).getD [] ∧
      metaRes8.clusters.lookup 0 = some ["r1"] ∧
      "used".toList ∉ tokensOf recR1.summary :=
  ⟨by decide, top5Indices_length, by decide, by decide, by decide⟩

/-- Claim C8, corrected, counterexample: an extracted document with two
tables and no text sections yields 3 sheets, not the claimed
`2 + 1 + 1 = 4` — the text-sections sheet is only written when at least
one text section exists. -/
theorem C8_counterexample :
    docTwoTablesNoText.tables.length = 2 ∧
      (convert_to_excel docTwoTablesNoText).length = 3 := by
  refine ⟨by decide, by decide⟩

/-- Claim C9, corrected, counterexample: the effective cluster count is
not clamped to at least 1 — for a one-document corpus with requested
`k = 0`, `min(0, 1) = 0` reaches the `KMeans` fit, which raises, instead
of being clamped to a single-cluster run. -/
theorem C9_counterexample :
    meta_study_from_matrix kmExact [recR1] 0 =
      .error (.valueError "n_clusters must be >= 1") := by
  rfl

/-- Claim C10, confirmed: `extract_and_convert` always returns a result
dictionary (the enclosing `try/except` catches every pipeline failure).
On success the dictionary carries the spreadsheet path, the extracted
data, and the table / text-section / chart counts of the extracted data,
with no error; on failure it carries an error message and `none` for the
spreadsheet path, the extracted data and the summary. -/
theorem C10_pipeline_result_shape :
    ∀ (fn : String) (elements : List RawElement)
      (writer : List Sheet → Except PyErr String),
      ((extract_and_convert fn elements writer).success = true →
        (extract_and_convert fn elements writer).error = none ∧
        ∃ p d, (extract_and_convert fn elements writer).excel_file = some p ∧
          (extract_and_convert fn elements writer).extracted_data = some d ∧
          (extract_and_convert fn elements writer).summary =
            some ⟨d.tables.length, d.text_sections.length, d.charts.length⟩) ∧
      ((extract_and_convert fn elements writer).success = false →
        (extract_and_convert fn elements writer).excel_file = none ∧
        (extract_and_convert fn elements writer).extracted_data = none ∧
        (extract_and_convert fn elements writer).summary = none ∧
        ∃ e, (extract_and_convert fn elements writer).error = some e) := by
  intro fn elements writer
  unfold extract_and_convert
  split
  · simp
  · dsimp only
    split
    · simp
    · simp

/-- Unfolding of `pyStrip` through `List.rdropWhile`. -/
theorem pyStrip_eq (s : List Char) :
    pyStrip s = List.rdropWhile pyIsSpace (s.dropWhile pyIsSpace) := rfl

/-- Python's `strip` is idempotent. -/
theorem pyStrip_idem (s : List Char) : pyStrip (pyStrip s) = pyStrip s := by
  rw [pyStrip_eq (pyStrip s), pyStrip_eq s]
  have h1 : (List.rdropWhile pyIsSpace (s.dropWhile pyIsSpace)).dropWhile pyIsSpace
      = List.rdropWhile pyIsSpace (s.dropWhile pyIsSpace) := by
    rw [List.dropWhile_eq_self_iff]
    intro hl
    have hpre := List.rdropWhile_prefix pyIsSpace (s.dropWhile pyIsSpace)
    have hlu : 0 < (s.dropWhile pyIsSpace).length :=
      lt_of_lt_of_le hl hpre.length_le
    have hnot := List.dropWhile_get_zero_not pyIsSpace s hlu
    simp only [List.get_eq_getElem] at hnot ⊢
    rw [hpre.getElem hl]
    exact hnot
  rw [h1, List.rdropWhile_idempotent]

/-- Claim C6, confirmed: the Table Reconstructor splits on line breaks,
discards blank lines, splits lines on the pipe character, trims cells and
drops empty ones, keeps a line only when a non-empty cell survives, and
yields no record when no row survives: the three concrete behaviours of
the claim hold, and every produced record is a non-empty list of
non-empty rows of non-empty, fully trimmed cells. -/
theorem C6_table_reconstructor :
    (extract_table_data "a|b\nc|d".toList =
      some [["a".toList, "b".toList], ["c".toList, "d".toList]]) ∧
    extract_table_data " \n  \n".toList = none ∧
    extract_table_data "  |  |  ".toList = none ∧
    (∀ (s : List Char) (td : List (List (List Char))),
      extract_table_data s = some td →
      td ≠ [] ∧ ∀ row ∈ td, row ≠ [] ∧
        ∀ cell ∈ row, cell ≠ [] ∧ pyStrip cell = cell) := by
  refine ⟨by decide, by decide, by decide, ?_⟩
  intro s td h
  unfold extract_table_data at h
  dsimp only at h
  split at h
  · cases h
  · next hne =>
    cases h
    refine ⟨by simpa using hne, ?_⟩
    intro row hrow
    rw [List.mem_filterMap] at hrow
    obtain ⟨r0, hr0, hf⟩ := hrow
    split at hf
    · cases hf
    · split at hf
      · cases hf
      · next hcells =>
        cases hf
        refine ⟨by simpa using hcells, ?_⟩
        intro cell hcell
        rw [List.mem_filterMap] at hcell
        obtain ⟨c0, hc0, hcf⟩ := hcell
        split at hcf
        · cases hcf
        · next hcne =>
          cases hcf
          exact ⟨by simpa using hcne, pyStrip_idem c0⟩

/-- Shifting a source-position witness for a table record across one
consumed element. -/
theorem exists_shift_table {e : RawElement} {es : List RawElement} {i : Nat}
    {r : TableRecord}
    (h : ∃ j e₀, es.get? j = some e₀ ∧ e₀.tag = .table ∧
      r.id = tableId (i + 1 + j)) :
    ∃ j e₀, (e :: es).get? j = some e₀ ∧ e₀.tag = .table ∧
      r.id = tableId (i + j) := by
  obtain ⟨j, e₀, hj, ht, hid⟩ := h
  refine ⟨j + 1, e₀, by simpa using hj, ht, ?_⟩
  rw [hid]
  congr 1
  omega

/-- Shifting a source-position witness for a text section across one
consumed element. -/
theorem exists_shift_text {e : RawElement} {es : List RawElement} {i : Nat}
    {r : TextSection}
    (h : ∃ j e₀, es.get? j = some e₀ ∧ e₀.tag ≠ .table ∧ e₀.tag ≠ .other ∧
      r.id = textId (i + 1 + j)) :
    ∃ j e₀, (e :: es).get? j = some e₀ ∧ e₀.tag ≠ .table ∧ e₀.tag ≠ .other ∧
      r.id = textId (i + j) := by
  obtain ⟨j, e₀, hj, ht, ho, hid⟩ := h
  refine ⟨j + 1, e₀, by simpa using hj, ht, ho, ?_⟩
  rw [hid]
  congr 1
  omega

/-- Records produced by the classification loop carry ids naming the
source position of the element they came from. -/
theorem classifyElems_ids :
    ∀ (elems : List RawElement) (i : Nat) (ts : List TableRecord)
      (xs : List TextSection),
      classifyElems i elems = .ok (ts, xs) →
      (∀ r ∈ ts, ∃ j e₀, elems.get? j = some e₀ ∧ e₀.tag = .table ∧
        r.id = tableId (i + j)) ∧
      (∀ r ∈ xs, ∃ j e₀, elems.get? j = some e₀ ∧ e₀.tag ≠ .table ∧
        e₀.tag ≠ .other ∧ r.id = textId (i + j)) := by
  intro elems
  induction elems with
  | nil =>
    intro i ts xs h
    unfold classifyElems at h
    cases h
    exact ⟨fun r hr => absurd hr (List.not_mem_nil r),
           fun r hr => absurd hr (List.not_mem_nil r)⟩
  | cons e es ih =>
    intro i ts xs h
    unfold classifyElems at h
    split at h
    -- Table branch
    · rename_i htag
      split at h
      · obtain ⟨h1, h2⟩ := ih (i + 1) ts xs h
        exact ⟨fun r hr => exists_shift_table (h1 r hr), fun r hr => exists_shift_text (h2 r hr)⟩
      · rename_i data hdata
        split at h
        · cases h
        · rename_i p hp
          split at h
          · cases h
          · rename_i ts0 xs0 hrec
            obtain ⟨h1, h2⟩ := ih (i + 1) ts0 xs0 hrec
            cases h
            constructor
            · intro r hr
              rcases List.mem_cons.mp hr with hr | hr
              · exact ⟨0, e, rfl, htag, by subst hr; rfl⟩
              · exact exists_shift_table (h1 r hr)
            · exact fun r hr => exists_shift_text (h2 r hr)
    -- ignored-tag branch
    · obtain ⟨h1, h2⟩ := ih (i + 1) ts xs h
      exact ⟨fun r hr => exists_shift_table (h1 r hr), fun r hr => exists_shift_text (h2 r hr)⟩
    -- text-like branch
    · rename_i hnt hno
      split at h
      · obtain ⟨h1, h2⟩ := ih (i + 1) ts xs h
        exact ⟨fun r hr => exists_shift_table (h1 r hr), fun r hr => exists_shift_text (h2 r hr)⟩
      · split at h
        · cases h
        · rename_i p hp
          split at h
          · cases h
          · rename_i ts0 xs0 hrec
            obtain ⟨h1, h2⟩ := ih (i + 1) ts0 xs0 hrec
            cases h
            constructor
            · exact fun r hr => exists_shift_table (h1 r hr)
            · intro r hr
              rcases List.mem_cons.mp hr with hr | hr
              · exact ⟨0, e, rfl, hnt, hno, by subst hr; rfl⟩
              · exact exists_shift_text (h2 r hr)

/-- Claim C7, confirmed: the Classifier sets `metadata.total_elements` to
the total input element count, ignored elements included, and record ids
name each element's 0-based source position (`table_j` for tables,
`text_j` for text-like elements), not the output position; in the
five-element scenario (tables at positions 0 and 1, text-like elements at
2 and 3, one unrecognized at 4) the ids are `table_0`, `table_1`,
`text_2`, `text_3` and `total_elements = 5`. -/
theorem C7_classifier_ids :
    (∀ (fn : String) (elems : List RawElement) (doc : ExtractedDocument),
      extract_from_pdf fn elems = .ok doc →
      doc.metadata.total_elements = elems.length ∧
      (∀ r ∈ doc.tables, ∃ j e₀, elems.get? j = some e₀ ∧
        e₀.tag = .table ∧ r.id = tableId j) ∧
      (∀ r ∈ doc.text_sections, ∃ j e₀, elems.get? j = some e₀ ∧
        e₀.tag ≠ .table ∧ e₀.tag ≠ .other ∧ r.id = textId j)) ∧
    extract_from_pdf "f.pdf" elemsFive = .ok
      ⟨[⟨"table_0", [["a".toList, "b".toList]], 1⟩,
        ⟨"table_1", [["c".toList, "d".toList]], 2⟩],
       [⟨"text_2", "hello".toList, "Text", 1⟩,
        ⟨"text_3", "world".toList, "Title", 3⟩],
       [], ⟨"f.pdf", 5⟩⟩ := by
  constructor
  · intro fn elems doc h
    unfold extract_from_pdf at h
    split at h
    · cases h
    · rename_i ts0 xs0 hcl
      cases h
      obtain ⟨h1, h2⟩ := classifyElems_ids elems 0 ts0 xs0 hcl
      refine ⟨rfl, ?_, ?_⟩
      · intro r hr
        obtain ⟨j, e₀, hj, ht, hid⟩ := h1 r hr
        refine ⟨j, e₀, hj, ht, ?_⟩
        rw [hid]
        congr 1
        omega
      · intro r hr
        obtain ⟨j, e₀, hj, ht, ho, hid⟩ := h2 r hr
        refine ⟨j, e₀, hj, ht, ho, ?_⟩
        rw [hid]
        congr 1
        omega
  · rfl

/-- One sheet is written per table record with non-empty rows. -/
theorem tableSheets_length :
    ∀ (l : List TableRecord) (n : Nat), (∀ t ∈ l, t.data ≠ []) →
      ((List.enumFrom n l).filterMap fun p =>
        if p.2.data.isEmpty then none
        else some (⟨"Table_" ++ toString (p.1 + 1),
          SheetData.table p.2.data⟩ : Sheet)).length = l.length := by
  intro l
  induction l with
  | nil => intro n _; rfl
  | cons t ts ih =>
    intro n h
    have ht : t.data ≠ [] := h t (List.mem_cons_self t ts)
    have hts : ∀ u ∈ ts, u.data ≠ [] := fun u hu => h u (List.mem_cons_of_mem t hu)
    cases htd : t.data with
    | nil => exact absurd htd ht
    | cons c cs =>
      simp only [List.enumFrom, List.filterMap_cons, htd, List.isEmpty_cons,
        Bool.false_eq_true, if_false, List.length_cons]
      rw [ih (n + 1) hts]

set_option maxRecDepth 4000 in
/-- Claim C8, amended: the exporter writes one sheet per table record
with non-empty rows, one text-sections sheet only when at least one text
section exists (none otherwise), and one metadata sheet; a document with
2 tables and 3 text sections yields exactly 4 sheets named
`Table_1`, `Table_2`, `Text_Sections`, `Metadata`, and a text content of
length 600 appears in the text-sections sheet truncated to its first 500
characters followed by the ellipsis marker. -/
theorem C8_exporter :
    (∀ d : ExtractedDocument, d.text_sections ≠ [] →
      (∀ t ∈ d.tables, t.data ≠ []) →
      (convert_to_excel d).length = d.tables.length + 2) ∧
    ((convert_to_excel docExportDemo).map Sheet.name =
      ["Table_1", "Table_2", "Text_Sections", "Metadata"]) ∧
    (convert_to_excel docExportDemo).getD 2 ⟨"", .meta "" 0⟩ =
      ⟨"Text_Sections",
       .texts [("text_2", "Text", 1, "alpha".toList),
               ("text_3", "Title", 1, "beta".toList),
               ("text_4", "Text", 2,
                List.replicate 500 'x' ++ "...".toList)]⟩ := by
  refine ⟨?_, by decide, ?_⟩
  · intro d hx ht
    unfold convert_to_excel
    unfold List.enum
    rw [List.length_append, List.length_append,
      tableSheets_length d.tables 0 ht]
    cases hxs : d.text_sections with
    | nil => exact absurd hxs hx
    | cons a l => simp
  · rfl

/-- Claim C9, amended: the effective cluster count is
`min(k_requested, corpus_size)` with no clamping (a requested count whose
minimum is below 1 raises a `ValueError` at the k-means fit rather than
being clamped); in particular, for a corpus of exactly one document with
requested `k = 3` the effective count is `min 3 1 = 1` and, for every
well-formed k-means collaborator, the result has the single cluster `0`
containing exactly that document. -/
theorem C9_degenerate_single_cluster :
    ∀ (km : Nat → List (List ℚ) → List Nat × List (List ℚ))
      (rec : CorpusRecord),
      KMeansValid km → tokensOf rec.summary ≠ [] →
      effectiveK 3 1 = 1 ∧
      ∃ res, meta_study_from_matrix km [rec] 3 = .ok res ∧
        res.clusters = [(0, [rec.filename])] ∧
        res.matrix = [(rec, 0)] := by
  intro km rec hkm htok
  refine ⟨rfl, ?_⟩
  have hvE : (sortedVocab [tokensOf rec.summary]).isEmpty = false := by
    rw [List.isEmpty_eq_false]
    unfold sortedVocab
    intro hnil
    have hperm := List.perm_insertionSort (fun a b => !strLt b a)
        ([tokensOf rec.summary].flatten.dedup)
    rw [hnil] at hperm
    have hded := hperm.symm.eq_nil
    rw [List.dedup_eq_nil] at hded
    simp only [List.flatten_cons, List.flatten_nil, List.append_nil] at hded
    exact htok hded
  have he : effectiveK 3 1 = 1 := rfl
  unfold meta_study_from_matrix
  simp only [List.isEmpty_cons, Bool.false_eq_true, if_false, List.map_cons,
    List.map_nil, List.length_singleton, he, hvE]
  rw [if_neg one_ne_zero]
  have key : ∀ X : List (List ℚ), X.length = 1 → (km 1 X).1 = [0] := by
    intro X hX1
    obtain ⟨hlen, hlt⟩ := hkm 1 X one_pos
    rw [hX1] at hlen
    cases hl : (km 1 X).1 with
    | nil => rw [hl] at hlen; simp at hlen
    | cons a t =>
      rw [hl] at hlen
      simp only [List.length_cons] at hlen
      have ht0 : t = [] := by
        rw [← List.length_eq_zero]
        omega
      have ha : a < 1 := hlt a (by rw [hl]; exact List.mem_cons_self a t)
      have ha0 : a = 0 := by omega
      rw [ht0, ha0]
  rw [key _ (by simp)]
  exact ⟨_, rfl, rfl, rfl⟩

/-- Claim C9 witness: the degenerate single-document run, at the concrete
§8 record `r1` and the concrete exact k-means collaborator. -/
theorem C9_witness :
    effectiveK 3 1 = 1 ∧
    ∃ res, meta_study_from_matrix kmExact [recR1] 3 = .ok res ∧
      res.clusters = [(0, [recR1.filename])] ∧
      res.matrix = [(recR1, 0)] :=
  C9_degenerate_single_cluster kmExact recR1 kmExact_valid (by decide)

/-- Claim C3, amended: for every centroid vector the returned index list
is ordered by weight descending with ties broken by descending (not
ascending) vocabulary index — under the stable model of `argsort`, the
final `[::-1]` reversal flips the ascending-index tie order — has exactly
`min 5 (vocab size)` entries, and contains only in-range vocabulary
indices. -/
theorem C3_top_terms_order :
    ∀ v : List ℚ,
      DescWeightDescIdx v (top5Indices v) ∧
      (top5Indices v).length = min 5 v.length ∧
      ∀ i ∈ top5Indices v, i < v.length := by
  intro v
  have hperm := List.perm_insertionSort (argsortRel v) (List.range v.length)
  have hsorted : List.Pairwise (argsortRel v) (argsortAsc v) :=
    List.sorted_insertionSort (argsortRel v) (List.range v.length)
  have hnodup : (argsortAsc v).Nodup :=
    hperm.symm.nodup (List.nodup_range v.length)
  have hdropSorted :
      List.Pairwise (argsortRel v) ((argsortAsc v).drop (v.length - 5)) :=
    List.Pairwise.sublist (List.drop_sublist _ _) hsorted
  have hdropNodup : ((argsortAsc v).drop (v.length - 5)).Nodup :=
    List.Nodup.sublist (List.drop_sublist _ _) hnodup
  refine ⟨?_, top5Indices_length v, ?_⟩
  · unfold DescWeightDescIdx top5Indices
    rw [List.pairwise_reverse]
    refine (hdropSorted.and hdropNodup).imp ?_
    intro a b hab
    rcases hab with ⟨h1 | ⟨h1, h2⟩, hne⟩
    · exact Or.inl h1
    · exact Or.inr ⟨h1.symm, lt_of_le_of_ne h2 hne⟩
  · intro i hi
    unfold top5Indices at hi
    rw [List.mem_reverse] at hi
    have h1 : i ∈ argsortAsc v := (List.drop_sublist _ _).subset hi
    have h2 : i ∈ List.range v.length := hperm.subset h1
    exact List.mem_range.mp h2

/-- Groups produced by the whitespace splitter are non-empty and contain
no whitespace characters. -/
theorem pySplitWsAux_groups :
    ∀ (cs acc : List Char), (∀ c ∈ acc, pyIsSpace c = false) →
      ∀ g ∈ pySplitWsAux cs acc, g ≠ [] ∧ ∀ c ∈ g, pyIsSpace c = false := by
  intro cs
  induction cs with
  | nil =>
    intro acc hacc g hg
    unfold pySplitWsAux at hg
    split at hg
    · simp at hg
    · rename_i hne
      rw [List.mem_singleton] at hg
      subst hg
      refine ⟨?_, fun c hc => hacc c (List.mem_reverse.mp hc)⟩
      simp only [ne_eq, List.reverse_eq_nil_iff]
      simpa using hne
  | cons c cs ih =>
    intro acc hacc g hg
    unfold pySplitWsAux at hg
    split at hg
    · split at hg
      · exact ih [] (by simp) g hg
      · rename_i hne
        rcases List.mem_cons.mp hg with hg | hg
        · subst hg
          refine ⟨?_, fun d hd => hacc d (List.mem_reverse.mp hd)⟩
          simp only [ne_eq, List.reverse_eq_nil_iff]
          simpa using hne
        · exact ih [] (by simp) g hg
    · rename_i hc
      refine ih (c :: acc) ?_ g hg
      intro d hd
      rcases List.mem_cons.mp hd with hd | hd
      · subst hd
        simpa using hc
      · exact hacc d hd

/-- A non-whitespace prefix is absorbed into the accumulator. -/
theorem pySplitWsAux_append_nonspace :
    ∀ (g cs acc : List Char), (∀ c ∈ g, pyIsSpace c = false) →
      pySplitWsAux (g ++ cs) acc = pySplitWsAux cs (g.reverse ++ acc) := by
  intro g
  induction g with
  | nil => intro cs acc h; simp
  | cons c g ih =>
    intro cs acc h
    have hc : pyIsSpace c = false := h c (List.mem_cons_self c g)
    show pySplitWsAux (c :: (g ++ cs)) acc = _
    simp only [pySplitWsAux, hc, Bool.false_eq_true, if_false]
    rw [ih cs (c :: acc) (fun d hd => h d (List.mem_cons_of_mem c hd))]
    simp [List.append_assoc]

/-- An all-whitespace input only flushes the accumulator. -/
theorem pySplitWsAux_space_only :
    ∀ (t acc : List Char), (∀ c ∈ t, pyIsSpace c = true) →
      pySplitWsAux t acc = if acc.isEmpty then [] else [acc.reverse] := by
  intro t
  induction t with
  | nil => intro acc h; rfl
  | cons c t ih =>
    intro acc h
    have hc := h c (List.mem_cons_self c t)
    have ht := fun d hd => h d (List.mem_cons_of_mem c hd)
    simp only [pySplitWsAux, hc, if_true]
    split
    · rw [ih [] ht]
      rfl
    · rw [ih [] ht]
      rfl

/-- Leading whitespace is skipped by the splitter. -/
theorem pySplitWsAux_space_leading :
    ∀ (t cs : List Char), (∀ c ∈ t, pyIsSpace c = true) →
      pySplitWsAux (t ++ cs) [] = pySplitWsAux cs [] := by
  intro t
  induction t with
  | nil => intro cs h; rfl
  | cons c t ih =>
    intro cs h
    have hc := h c (List.mem_cons_self c t)
    show pySplitWsAux (c :: (t ++ cs)) [] = _
    simp only [pySplitWsAux, hc, if_true, List.isEmpty_nil]
    exact ih cs (fun d hd => h d (List.mem_cons_of_mem c hd))

/-- Trailing whitespace does not change the split. -/
theorem pySplitWsAux_append_space :
    ∀ (cs t acc : List Char), (∀ c ∈ t, pyIsSpace c = true) →
      pySplitWsAux (cs ++ t) acc = pySplitWsAux cs acc := by
  intro cs
  induction cs with
  | nil =>
    intro t acc h
    simp only [List.nil_append]
    rw [pySplitWsAux_space_only t acc h]
    rfl
  | cons c cs ih =>
    intro t acc h
    show pySplitWsAux (c :: (cs ++ t)) acc = _
    simp only [pySplitWsAux]
    rw [ih t [] h, ih t (c :: acc) h]

/-- Stripping before splitting on whitespace changes nothing. -/
theorem pySplitWs_strip (s : List Char) : pySplitWs (pyStrip s) = pySplitWs s := by
  have hdecomp : ∀ l : List Char,
      l = List.rdropWhile pyIsSpace l ++ List.rtakeWhile pyIsSpace l := by
    intro l
    conv_lhs => rw [← List.reverse_reverse l,
      ← List.takeWhile_append_dropWhile pyIsSpace l.reverse]
    rw [List.reverse_append]
    rfl
  rw [pyStrip_eq]
  unfold pySplitWs
  have h1 : pySplitWsAux s [] = pySplitWsAux (s.dropWhile pyIsSpace) [] := by
    conv_lhs => rw [← List.takeWhile_append_dropWhile pyIsSpace s]
    exact pySplitWsAux_space_leading _ _ (fun c hc => List.mem_takeWhile_imp hc)
  have h2 : pySplitWsAux (s.dropWhile pyIsSpace) [] =
      pySplitWsAux (List.rdropWhile pyIsSpace (s.dropWhile pyIsSpace)) [] := by
    conv_lhs => rw [hdecomp (s.dropWhile pyIsSpace)]
    exact pySplitWsAux_append_space _ _ [] (fun c hc => List.mem_rtakeWhile_imp hc)
  rw [h1, h2]

/-- Splitting a space-joined list of non-empty, whitespace-free groups
recovers the groups. -/
theorem pySplitWs_joinSp :
    ∀ gs : List (List Char),
      (∀ g ∈ gs, g ≠ [] ∧ ∀ c ∈ g, pyIsSpace c = false) →
      pySplitWs (joinSp gs) = gs := by
  intro gs
  induction gs with
  | nil => intro h; rfl
  | cons g gs ih =>
    intro h
    obtain ⟨hgne, hgns⟩ := h g (List.mem_cons_self g gs)
    have hrest := fun u hu => h u (List.mem_cons_of_mem g hu)
    cases gs with
    | nil =>
      show pySplitWsAux (joinSp [g]) [] = [g]
      have hjoin : joinSp [g] = g ++ [] := by simp [joinSp]
      rw [hjoin, pySplitWsAux_append_nonspace g [] [] hgns]
      simp only [List.append_nil, pySplitWsAux]
      rw [if_neg (by simpa using hgne), List.reverse_reverse]
    | cons g2 gs2 =>
      show pySplitWsAux (g ++ ' ' :: joinSp (g2 :: gs2)) [] = g :: g2 :: gs2
      rw [pySplitWsAux_append_nonspace g _ [] hgns]
      simp only [List.append_nil, pySplitWsAux,
        show pyIsSpace ' ' = true from rfl, if_true]
      rw [if_neg (by simpa using hgne), List.reverse_reverse]
      have hih := ih hrest
      unfold pySplitWs at hih
      rw [hih]

/-- A whitespace-free string trivially has no two adjacent whitespace
characters. -/
theorem chain_no_double_of_nonspace :
    ∀ l : List Char, (∀ c ∈ l, pyIsSpace c = false) →
      l.Chain' (fun a b => ¬(pyIsSpace a = true ∧ pyIsSpace b = true)) := by
  intro l
  induction l with
  | nil => intro _; exact List.chain'_nil
  | cons a l ih =>
    intro h
    rw [List.chain'_cons']
    refine ⟨?_, ih (fun c hc => h c (List.mem_cons_of_mem a hc))⟩
    intro y _ hcon
    rw [h a (List.mem_cons_self a l)] at hcon
    exact Bool.false_ne_true hcon.1

/-- The head of a space-join is the head of its first group. -/
theorem joinSp_head? :
    ∀ (g : List Char) (gs : List (List Char)), g ≠ [] →
      (joinSp (g :: gs)).head? = g.head? := by
  intro g gs hg
  cases gs with
  | nil => rfl
  | cons g2 gs2 =>
    show (g ++ ' ' :: joinSp (g2 :: gs2)).head? = g.head?
    cases g with
    | nil => exact absurd rfl hg
    | cons c cs => rfl

/-- A space-join starting with a non-empty group is non-empty. -/
theorem joinSp_ne_nil :
    ∀ (g : List Char) (gs : List (List Char)), g ≠ [] →
      joinSp (g :: gs) ≠ [] := by
  intro g gs hg hnil
  have := joinSp_head? g gs hg
  rw [hnil] at this
  cases g with
  | nil => exact hg rfl
  | cons c cs => exact Option.noConfusion this

/-- The last character of a space-join of non-empty groups belongs to one
of the groups. -/
theorem joinSp_getLast_mem :
    ∀ (gs : List (List Char)), (∀ g ∈ gs, g ≠ []) →
      ∀ c, (joinSp gs).getLast? = some c → ∃ g ∈ gs, c ∈ g := by
  intro gs
  induction gs with
  | nil => intro _ c hc; cases hc
  | cons g gs ih =>
    intro h c hc
    cases gs with
    | nil =>
      refine ⟨g, List.mem_cons_self g [], ?_⟩
      obtain ⟨hne, rfl⟩ := List.mem_getLast?_eq_getLast hc
      exact List.getLast_mem hne
    | cons g2 gs2 =>
      have hg2 : g2 ≠ [] := h g2 (List.mem_cons_of_mem g (List.mem_cons_self g2 gs2))
      have hrest : ∀ u ∈ g2 :: gs2, u ≠ [] :=
        fun u hu => h u (List.mem_cons_of_mem g hu)
      have hjne : joinSp (g2 :: gs2) ≠ [] := joinSp_ne_nil g2 gs2 hg2
      have hstep : (joinSp (g :: g2 :: gs2)).getLast? = (joinSp (g2 :: gs2)).getLast? := by
        show (g ++ ' ' :: joinSp (g2 :: gs2)).getLast? = _
        rw [List.getLast?_append_of_ne_nil g (by simp)]
        show ([' '] ++ joinSp (g2 :: gs2)).getLast? = _
        rw [List.getLast?_append_of_ne_nil [' '] hjne]
      rw [hstep] at hc
      obtain ⟨u, hu, hcu⟩ := ih hrest c hc
      exact ⟨u, List.mem_cons_of_mem g hu, hcu⟩

/-- A space-join of non-empty, whitespace-free groups has no two adjacent
whitespace characters. -/
theorem joinSp_chain :
    ∀ gs : List (List Char),
      (∀ g ∈ gs, g ≠ [] ∧ ∀ c ∈ g, pyIsSpace c = false) →
      NoDoubleWhitespace (joinSp gs) := by
  intro gs
  induction gs with
  | nil => intro _; exact List.chain'_nil
  | cons g gs ih =>
    intro h
    obtain ⟨hgne, hgns⟩ := h g (List.mem_cons_self g gs)
    have hrest := fun u hu => h u (List.mem_cons_of_mem g hu)
    cases gs with
    | nil => exact chain_no_double_of_nonspace g hgns
    | cons g2 gs2 =>
      show List.Chain' _ (g ++ ' ' :: joinSp (g2 :: gs2))
      obtain ⟨hg2ne, hg2ns⟩ := h g2 (List.mem_cons_of_mem g (List.mem_cons_self g2 gs2))
      apply List.Chain'.append
      · exact chain_no_double_of_nonspace g hgns
      · rw [List.chain'_cons']
        constructor
        · intro y hy hcon
          rw [joinSp_head? g2 gs2 hg2ne] at hy
          have hyg : y ∈ g2 := List.mem_of_mem_head? hy
          rw [hg2ns y hyg] at hcon
          exact Bool.false_ne_true hcon.2
        · exact ih hrest
      · intro x hx y _ hcon
        obtain ⟨hne, rfl⟩ := List.mem_getLast?_eq_getLast hx
        rw [hgns _ (List.getLast_mem hne)] at hcon
        exact Bool.false_ne_true hcon.1

/-- Strings whose first and last characters are not whitespace are fixed
points of `strip`. -/
theorem pyStrip_eq_self :
    ∀ l : List Char,
      (∀ c ∈ l.head?, pyIsSpace c = false) →
      (∀ c ∈ l.getLast?, pyIsSpace c = false) →
      pyStrip l = l := by
  intro l hh hl
  cases l with
  | nil => rfl
  | cons a t =>
    rw [pyStrip_eq]
    have ha : pyIsSpace a = false := hh a (by simp)
    have h1 : (a :: t).dropWhile pyIsSpace = a :: t := by
      rw [List.dropWhile_cons_of_neg (by simp [ha])]
    rw [h1, List.rdropWhile_eq_self_iff]
    intro hne
    have hmem : (a :: t).getLast hne ∈ (a :: t).getLast? := by
      rw [List.getLast?_eq_getLast_of_ne_nil hne]
      rfl
    have := hl _ hmem
    simp [this]

/-- Claim C5, confirmed: the Text Normalizer is idempotent and fully
normalizing — for every string `s`, normalizing twice equals normalizing
once, the result has no leading or trailing whitespace (it is a fixed
point of `strip`), and no two consecutive characters of the result are
both whitespace. -/
theorem C5_normalizer :
    ∀ s : List Char,
      preprocess_text (preprocess_text s) = preprocess_text s ∧
      pyStrip (preprocess_text s) = preprocess_text s ∧
      NoDoubleWhitespace (preprocess_text s) := by
  intro s
  have hG : ∀ g ∈ pySplitWs (pyStrip s), g ≠ [] ∧ ∀ c ∈ g, pyIsSpace c = false :=
    pySplitWsAux_groups (pyStrip s) [] (by simp)
  have hjoin : preprocess_text s = joinSp (pySplitWs (pyStrip s)) := rfl
  refine ⟨?_, ?_, ?_⟩
  · show joinSp (pySplitWs (pyStrip (preprocess_text s))) = preprocess_text s
    rw [pySplitWs_strip (preprocess_text s), hjoin, pySplitWs_joinSp _ hG]
  · apply pyStrip_eq_self
    · intro c hc
      rw [hjoin] at hc
      cases hGs : pySplitWs (pyStrip s) with
      | nil => rw [hGs] at hc; cases hc
      | cons g gs =>
        rw [hGs] at hc hG
        obtain ⟨hgne, hgns⟩ := hG g (List.mem_cons_self g gs)
        rw [joinSp_head? g gs hgne] at hc
        exact hgns c (List.mem_of_mem_head? hc)
    · intro c hc
      rw [hjoin] at hc
      obtain ⟨g, hgmem, hcg⟩ := joinSp_getLast_mem (pySplitWs (pyStrip s))
        (fun g hg => (hG g hg).1) c hc
      exact (hG g hgmem).2 c hcg
  · rw [hjoin]
    exact joinSp_chain _ hG

end AIxMultimodal
